import Mathlib

/-!
Shallow embedding of the AI-camera application (an Expo/React-Native app:
camera capture → Tesseract OCR → OpenAI chat completion → local history).

JavaScript strings are modelled as `List Char` (one entry per code point;
every character range relevant to this program lies in the BMP, where code
points and UTF-16 code units coincide).  JavaScript runtime values that can
flow out of `JSON.parse` are modelled by the inductive `JsValue`;
`JSON.parse` itself is modelled by the executable `jsonParse` below.
Rational numbers stand in for JS floats (no claim under study depends on
rounding, and the constants involved — 0.5, 0.8, 0.1 — are exact).
-/

/-- A JavaScript string: a list of characters. -/
abbrev JSString := List Char

/-- Coerce a Lean string literal to the JS-string model. -/
def jstr (s : String) : JSString := s.data

/-- `needle.isPrefixOf haystack` style prefix test, as used under the hood by
`String.prototype.includes`. -/
def isPrefixList (needle haystack : JSString) : Bool :=
  match needle, haystack with
  | [], _ => true
  | _ :: _, [] => false
  | n :: ns, h :: hs => n == h && isPrefixList ns hs

/-- `haystack.includes(needle)` for JS strings. -/
def containsSub (haystack needle : JSString) : Bool :=
  match haystack with
  | [] => needle.isEmpty
  | _ :: t => isPrefixList needle haystack || containsSub t needle

/-- The whitespace class of JavaScript (`\s` in a regex, and the set removed
by `String.prototype.trim`). -/
def isJsWhitespace (c : Char) : Bool :=
  c == ' ' || c == '\t' || c == '\n' || c == '\r'
  || c.toNat == 0x0B || c.toNat == 0x0C
  || c.toNat == 0xA0 || c.toNat == 0x1680
  || (0x2000 ≤ c.toNat && c.toNat ≤ 0x200A)
  || c.toNat == 0x2028 || c.toNat == 0x2029 || c.toNat == 0x202F
  || c.toNat == 0x205F || c.toNat == 0x3000 || c.toNat == 0xFEFF

/-- `String.prototype.trim`: strip leading and trailing whitespace. -/
def trimJs (cs : JSString) : JSString :=
  ((cs.dropWhile isJsWhitespace).reverse.dropWhile isJsWhitespace).reverse

/-- Decimal rendering of a natural number, as JS template interpolation of a
number produces (`Nat.repr` agrees with JS for naturals). -/
def natToJs (n : Nat) : JSString := (Nat.repr n).data

/-- A JavaScript value as it can appear while handling a parsed completion
body.  `undefined` is the result of reading an absent property.  (JS `NaN`
has no counterpart in `ℚ`; no input under study produces it.) -/
inductive JsValue where
  | undefined : JsValue
  | null : JsValue
  | bool : Bool → JsValue
  | num : ℚ → JsValue
  | str : JSString → JsValue
  | arr : List JsValue → JsValue
  | obj : List (JSString × JsValue) → JsValue

/-- JS truthiness: `undefined`, `null`, `false`, `0` and `''` are falsy;
objects and arrays are always truthy. -/
def truthy : JsValue → Bool
  | .undefined => false
  | .null => false
  | .bool b => b
  | .num q => decide (q ≠ 0)
  | .str s => !s.isEmpty
  | .arr _ => true
  | .obj _ => true

/-- `a || b` on JS values: the left operand when truthy, else the right. -/
def jsOr (a b : JsValue) : JsValue := if truthy a then a else b

/-- Property read `v[k]` on a JS value that is not `null`/`undefined`:
objects look the key up (later duplicate keys win, as after `JSON.parse`);
primitives such as numbers, strings and booleans have none of the keys used
here, giving `undefined`.  Reads on `null` throw in JS and are handled at
the call site (`analyzeContent`). -/
def getField (v : JsValue) (k : JSString) : JsValue :=
  match v with
  | .obj fields =>
    (fields.foldl (fun r p => if p.1 == k then some p.2 else r) none).getD .undefined
  | _ => .undefined

/-- JSON whitespace (space, tab, line feed, carriage return), skipped
between tokens by `JSON.parse`. -/
def isJsonWs (c : Char) : Bool :=
  c.toNat = 32 || c.toNat = 9 || c.toNat = 10 || c.toNat = 13

/-- Skip JSON inter-token whitespace. -/
def skipWs (cs : List Char) : List Char := cs.dropWhile isJsonWs

/-- Hex digit value, for `\uXXXX` escapes (digits, then the two letter
ranges by code point). -/
def hexDigitVal (c : Char) : Option Nat :=
  let n := c.toNat
  if 48 ≤ n && n ≤ 57 then some (n - 48)
  else if 97 ≤ n && n ≤ 102 then some (n - 87)
  else if 65 ≤ n && n ≤ 70 then some (n - 55)
  else none

/-- Single-character JSON escapes, as an association table. -/
def escTable : List (Char × Char) :=
  [('"', '"'), ('\\', '\\'), ('/', '/'), ('b', Char.ofNat 8), ('f', Char.ofNat 12),
   ('n', '\n'), ('r', '\r'), ('t', '\t')]

/-- Decode a single-character JSON escape. -/
def escChar (c : Char) : Option Char := escTable.lookup c

/-- Body of a JSON string literal, after the opening quote: returns the
decoded characters and the input past the closing quote.  (A `\u` escape
denoting a lone surrogate maps to `Char.ofNat`'s default; no input under
study contains one.) -/
def jsonStringBody : List Char → Option (List Char × List Char)
  | [] => none
  | c :: rest =>
    if c == '"' then some ([], rest)
    else if c == '\\' then
      match rest with
      | [] => none
      | e :: rest2 =>
        if e == 'u' then
          match rest2 with
          | h1 :: h2 :: h3 :: h4 :: rest3 =>
            match hexDigitVal h1, hexDigitVal h2, hexDigitVal h3, hexDigitVal h4 with
            | some a, some b, some c2, some d =>
              match jsonStringBody rest3 with
              | some (s, r) => some (Char.ofNat (((a * 16 + b) * 16 + c2) * 16 + d) :: s, r)
              | none => none
            | _, _, _, _ => none
          | _ => none
        else
          match escChar e with
          | some ec =>
            match jsonStringBody rest2 with
            | some (s, r) => some (ec :: s, r)
            | none => none
          | none => none
    else if c.toNat < 32 then none
    else
      match jsonStringBody rest with
      | some (s, r) => some (c :: s, r)
      | none => none

/-- Digit run as a natural number. -/
def digitsToNat (ds : List Char) : Nat :=
  ds.foldl (fun acc c => acc * 10 + (c.toNat - 48)) 0

/-- Assemble `intDigits.fracDigits × 10^ex` as a rational. -/
def ratOfDigits (intDigits fracDigits : List Char) (ex : ℤ) : ℚ :=
  (digitsToNat (intDigits ++ fracDigits) : ℚ) * (10 : ℚ) ^ (ex - (fracDigits.length : ℤ))

/-- The fraction digits after a decimal point, when one is present (a point
with no digit after it is a malformed number). -/
def jsonFracPart : List Char → Option (List Char × List Char)
  | '.' :: r =>
    let p := r.span Char.isDigit
    if p.1.isEmpty then none else some p
  | cs => some ([], cs)

/-- Exponent digits (sign already consumed), as a signed integer. -/
def jsonExpDigits (sgnNeg : Bool) (cs : List Char) : Option (ℤ × List Char) :=
  let p := cs.span Char.isDigit
  if p.1.isEmpty then none
  else some ((if sgnNeg then -(digitsToNat p.1 : ℤ) else (digitsToNat p.1 : ℤ)), p.2)

/-- The optional exponent marker of a JSON number. -/
def jsonExpPart : List Char → Option (ℤ × List Char)
  | 'e' :: '+' :: r => jsonExpDigits false r
  | 'e' :: '-' :: r => jsonExpDigits true r
  | 'e' :: r => jsonExpDigits false r
  | 'E' :: '+' :: r => jsonExpDigits false r
  | 'E' :: '-' :: r => jsonExpDigits true r
  | 'E' :: r => jsonExpDigits false r
  | cs => some (0, cs)

/-- The unsigned body of a JSON number token
(`(0|[1-9][0-9]*)(\.[0-9]+)?([eE][+-]?[0-9]+)?`; a redundant leading zero
is refused). -/
def jsonNumMag (cs : List Char) : Option (ℚ × List Char) :=
  let ip := cs.span Char.isDigit
  if ip.1.isEmpty then none
  else if ip.1.head? == some '0' && 2 ≤ ip.1.length then none
  else
    match jsonFracPart ip.2 with
    | none => none
    | some (fd, cs3) =>
      match jsonExpPart cs3 with
      | none => none
      | some (ex, cs4) => some (ratOfDigits ip.1 fd ex, cs4)

/-- A JSON number token, with its optional leading minus sign. -/
def jsonNumber (cs : List Char) : Option (ℚ × List Char) :=
  match cs with
  | '-' :: r => (jsonNumMag r).map (fun p => (-p.1, p.2))
  | _ => jsonNumMag cs

mutual

/-- One JSON value, fuel-indexed recursive descent (the fuel only bounds
recursion depth; `jsonParse` supplies more than any input can consume). -/
def jsonVal : Nat → List Char → Option (JsValue × List Char)
  | 0, _ => none
  | Nat.succ f, cs =>
    match cs with
    | [] => none
    | '"' :: rest =>
      match jsonStringBody rest with
      | some (s, r) => some (.str s, r)
      | none => none
    | 't' :: 'r' :: 'u' :: 'e' :: r => some (.bool true, r)
    | 'f' :: 'a' :: 'l' :: 's' :: 'e' :: r => some (.bool false, r)
    | 'n' :: 'u' :: 'l' :: 'l' :: r => some (.null, r)
    | '[' :: rest =>
      match skipWs rest with
      | ']' :: r => some (.arr [], r)
      | rest1 =>
        match jsonVal f rest1 with
        | some (v, r) => jsonArrRest f [v] (skipWs r)
        | none => none
    | '{' :: rest =>
      match skipWs rest with
      | '}' :: r => some (.obj [], r)
      | rest1 => jsonObjRest f [] rest1 true
    | _ =>
      match jsonNumber cs with
      | some (q, r) => some (.num q, r)
      | none => none

/-- Remaining elements of a JSON array, after at least one element. -/
def jsonArrRest : Nat → List JsValue → List Char → Option (JsValue × List Char)
  | 0, _, _ => none
  | Nat.succ f, acc, cs =>
    match cs with
    | ',' :: r =>
      match jsonVal f (skipWs r) with
      | some (v, r2) => jsonArrRest f (v :: acc) (skipWs r2)
      | none => none
    | ']' :: r => some (.arr acc.reverse, r)
    | _ => none

/-- Members of a JSON object: at a key when `atKey` is true, else at a
separator (`,`) or the closing brace. -/
def jsonObjRest : Nat → List (JSString × JsValue) → List Char → Bool →
    Option (JsValue × List Char)
  | 0, _, _, _ => none
  | Nat.succ f, acc, cs, atKey =>
    if atKey then
      match cs with
      | '"' :: rest =>
        match jsonStringBody rest with
        | some (k, r) =>
          match skipWs r with
          | ':' :: r2 =>
            match jsonVal f (skipWs r2) with
            | some (v, r3) => jsonObjRest f ((k, v) :: acc) (skipWs r3) false
            | none => none
          | _ => none
        | none => none
      | _ => none
    else
      match cs with
      | ',' :: r => jsonObjRest f acc (skipWs r) true
      | '}' :: r => some (.obj acc.reverse, r)
      | _ => none

end

/-- `JSON.parse`: parse one value and require only whitespace to remain. -/
def jsonParse (cs : JSString) : Option JsValue :=
  match jsonVal (cs.length * 4 + 16) (skipWs cs) with
  | some (v, rest) => if (skipWs rest).isEmpty then some v else none
  | none => none

/-! ## Completion Client (`OpenAIService.analyzeText`) -/

/-- Thrown on `analyzeText` with no API key set. -/
def notConfiguredMsg : JSString := jstr "OpenAI API key not set"

/-- Message thrown on HTTP 401. -/
def invalidCredentialMsg : JSString :=
  jstr "APIキーが無効です。正しいOpenAI APIキーを設定してください。"

/-- Message thrown on HTTP 429 with error code `insufficient_quota`. -/
def quotaExceededMsg : JSString :=
  jstr "OpenAI APIの利用枠を超過しました。プランと請求詳細を確認してください。"

/-- Message thrown on any other HTTP 429. -/
def rateLimitedMsg : JSString :=
  jstr "API利用制限に達しました。しばらく待ってから再試行してください。"

/-- Message thrown on HTTP 403. -/
def forbiddenMsg : JSString :=
  jstr "APIアクセスが拒否されました。APIキーの権限を確認してください。"

/-- `errorData.error?.message || 'Unknown error'`. -/
def orUnknown : Option JSString → JSString
  | some s => if s.isEmpty then jstr "Unknown error" else s
  | none => jstr "Unknown error"

/-- The message of the error thrown for a non-success HTTP status, following
the status branching in `analyzeText`. -/
def statusErrorMsg (status : Nat) (errCode errMsg : Option JSString) : JSString :=
  if status = 401 then invalidCredentialMsg
  else if status = 429 then
    if errCode = some (jstr "insufficient_quota") then quotaExceededMsg else rateLimitedMsg
  else if status = 403 then forbiddenMsg
  else jstr "API error: " ++ natToJs status ++ jstr " - " ++ orUnknown errMsg

/-- The `{answer, explanation, confidence}` record returned by
`analyzeText`.  Fields hold JS values: the code annotates them as
string/string/number, but nothing at runtime enforces that for a parsed
body. -/
structure AnalyzeResult where
  answer : JsValue
  explanation : JsValue
  confidence : JsValue

/-- The non-JSON branch of the success handler: the whole body is the
answer, a fixed filler explanation, confidence 0.8. -/
def fallbackResult (content : JSString) : AnalyzeResult :=
  { answer := .str content
    explanation := .str (jstr "GPT-4による回答")
    confidence := .num (4/5) }

/-- The parsed-JSON branch: each field defaulted when falsy
(`parsed.answer || …`, `parsed.explanation || …`, `parsed.confidence || 0.5`). -/
def defaultedResult (v : JsValue) : AnalyzeResult :=
  { answer := jsOr (getField v (jstr "answer")) (.str (jstr "No answer provided"))
    explanation := jsOr (getField v (jstr "explanation")) (.str (jstr "No explanation provided"))
    confidence := jsOr (getField v (jstr "confidence")) (.num (1/2)) }

/-- Success-path handling of the completion message body: `JSON.parse`
inside a try/catch.  A body parsing to JSON `null` makes the subsequent
`parsed.answer` property read throw a `TypeError`, which the same catch
turns into the fallback branch. -/
def analyzeContent (content : JSString) : AnalyzeResult :=
  match jsonParse content with
  | some JsValue.null => fallbackResult content
  | some v => defaultedResult v
  | none => fallbackResult content

/-- The observable inputs of one `analyzeText` call: the HTTP status, the
decoded error body fields (`errorData.error?.code` / `.message`) used on
failure, and `data.choices[0].message.content` used on success. -/
structure HttpResponse where
  status : Nat
  errorCode : Option JSString
  errorMessage : Option JSString
  content : JSString

/-- `response.ok`: status in the inclusive range 200–299. -/
def respOk (status : Nat) : Bool := 200 ≤ status && status ≤ 299

/-- `OpenAIService.analyzeText`: requires a non-empty API key, branches on
the HTTP status, and parses the body on success.  Thrown JS errors are
modelled by their message strings. -/
def analyzeText (apiKey : JSString) (resp : HttpResponse) : Except JSString AnalyzeResult :=
  if apiKey.isEmpty then .error notConfiguredMsg
  else if !respOk resp.status then
    .error (statusErrorMsg resp.status resp.errorCode resp.errorMessage)
  else .ok (analyzeContent resp.content)

/-- The typed error vocabulary of the specification (section 7). -/
inductive ApiError where
  | invalidCredential : ApiError
  | quotaExceeded : ApiError
  | rateLimited : ApiError
  | forbidden : ApiError
  | upstream : Nat → Option JSString → ApiError
deriving DecidableEq

/-- The typed error the spec assigns to a non-success HTTP status:
401→InvalidCredential, 429 with the quota code→QuotaExceeded, other
429→RateLimited, 403→Forbidden, anything else→UpstreamError carrying the
status and upstream message. -/
def specStatusError (status : Nat) (errCode errMsg : Option JSString) : ApiError :=
  if status = 401 then .invalidCredential
  else if status = 429 then
    if errCode = some (jstr "insufficient_quota") then .quotaExceeded else .rateLimited
  else if status = 403 then .forbidden
  else .upstream status errMsg

/-- The concrete message carried by each typed error. -/
def ApiError.toMsg : ApiError → JSString
  | .invalidCredential => invalidCredentialMsg
  | .quotaExceeded => quotaExceededMsg
  | .rateLimited => rateLimitedMsg
  | .forbidden => forbiddenMsg
  | .upstream status m => jstr "API error: " ++ natToJs status ++ jstr " - " ++ orUnknown m

/-! ## Capture Orchestrator (`CameraViewComponent`) -/

/-- The question-likelihood filter of `processCurrentFrame`:
`text && text.length > 10 && (includes one of ? ？ = ＝ or /\d+/ matches)`.
`includes` on a single character is containment; `\d` without the unicode
flag is the ASCII digits. -/
def questionLike (t : JSString) : Bool :=
  !t.isEmpty && decide (10 < t.length)
    && (t.contains '?' || t.contains '？' || t.contains '='
        || t.contains '＝' || t.any Char.isDigit)

/-- The realtime catch handler's test on a caught error message:
`message.includes('API利用制限') || message.includes('APIキーが無効')`. -/
def shouldDisableRealtime (msg : JSString) : Bool :=
  containsSub msg (jstr "API利用制限") || containsSub msg (jstr "APIキーが無効")

/-- Effect of the realtime catch handler on `(realtimeEnabled, alertShown)`:
when the message matches, the alert is shown and realtime mode is switched
off; otherwise the error is only logged and the mode (hence the timer) is
left as it was. -/
def realtimeCatch (realtimeEnabled : Bool) (msg : JSString) : Bool × Bool :=
  if shouldDisableRealtime msg then (false, true) else (realtimeEnabled, false)

/-- State of the periodic-capture machinery: the in-flight guard
(`processingRef.current`), the last start time (`lastProcessTime`, ms), and
a ghost count of pipeline runs currently in flight. -/
structure RtState where
  processing : Bool
  lastProcessTime : Nat
  active : Nat
deriving DecidableEq

/-- Events of the periodic loop: a timer tick at time `now`, or completion
of the in-flight pipeline run (the `finally` block). -/
inductive RtEvent where
  | tick : Nat → RtEvent
  | finish : RtEvent

/-- One step of the periodic loop.  A tick is dropped while the guard is
held, and also within 2000 ms of the last start; otherwise it raises the
guard and starts a run (the guard is set before the first suspension point,
and JS is single-threaded, so check and set are atomic). -/
def rtStep (s : RtState) (e : RtEvent) : RtState :=
  match e with
  | .tick now =>
    if s.processing then s
    else if now - s.lastProcessTime < 2000 then s
    else { processing := true, lastProcessTime := now, active := s.active + 1 }
  | .finish => { s with processing := false, active := s.active - 1 }

/-- Run the periodic loop over a list of events. -/
def rtRun (s : RtState) (events : List RtEvent) : RtState :=
  events.foldl rtStep s

/-- Initial state: guard down, `lastProcessTime` 0, nothing in flight. -/
def rtInit : RtState := ⟨false, 0, 0⟩

/-! ## Text Recognition Adapter (`OCRService.recognizeText`) -/

/-- JS `\w`: ASCII letters, digits and underscore. -/
def isWordChar (c : Char) : Bool := c.isAlpha || c.isDigit || c == '_'

/-- The allowed set of the cleanup regex in `recognizeText`: word
characters, whitespace, hiragana (U+3040–U+309F), katakana (U+30A0–U+30FF),
CJK ideographs (U+4E00–U+9FAF), and `＋－×÷＝（）？！。、` written via their
ASCII/JP escapes `+ - × ÷ = ( ) ? ! 。 、`. -/
def allowedChar (c : Char) : Bool :=
  isWordChar c || isJsWhitespace c
  || (0x3040 ≤ c.toNat && c.toNat ≤ 0x309F)
  || (0x30A0 ≤ c.toNat && c.toNat ≤ 0x30FF)
  || (0x4E00 ≤ c.toNat && c.toNat ≤ 0x9FAF)
  || c == '+' || c == '-' || c == '×' || c == '÷' || c == '='
  || c == '(' || c == ')' || c == '?' || c == '!' || c == '。' || c == '、'

/-- `.replace(/\s+/g, ' ')`, carrying a flag for "inside a whitespace run":
every maximal whitespace run becomes one space. -/
def collapseWsAux : Bool → List Char → List Char
  | _, [] => []
  | inRun, c :: rest =>
    if isJsWhitespace c then
      if inRun then collapseWsAux true rest
      else ' ' :: collapseWsAux true rest
    else c :: collapseWsAux false rest

/-- `.replace(/\s+/g, ' ')`: every maximal whitespace run becomes one
space. -/
def collapseWs (cs : List Char) : List Char := collapseWsAux false cs

/-- The claim's description of the cleanup: collapse whitespace, then strip
characters outside the allowed set (stated without the final trim). -/
def specCleanText (raw : JSString) : JSString :=
  (collapseWs raw).filter allowedChar

/-- The cleanup actually performed by `recognizeText`: collapse, strip,
then `.trim()`. -/
def cleanOcrText (raw : JSString) : JSString :=
  trimJs (specCleanText raw)

/-- `Math.max(0.1, confidence / 100)` applied to the raw engine confidence
(a 0–100 score). -/
def ocrConfidence (raw : ℚ) : ℚ := max (1/10) (raw / 100)

/-! ## Credential Store (settings screen `saveApiKey` / `loadSettings`) -/

/-- `saveApiKey` acting on the persisted `openai_api_key` slot: reject a
whitespace-only input, reject an input not starting with `sk-` (checked on
the untrimmed input), otherwise persist the trimmed input. -/
def saveApiKey (stored : Option JSString) (input : JSString) : Option JSString :=
  if (trimJs input).isEmpty then stored
  else if !isPrefixList (jstr "sk-") input then stored
  else some (trimJs input)

/-- `loadSettings` reading the credential into screen state: a missing or
empty stored value leaves the initial empty string. -/
def loadApiKey (stored : Option JSString) : JSString :=
  match stored with
  | some v => if v.isEmpty then [] else v
  | none => []

/-! ## History Store (`handleResult` on the camera screen) -/

/-- One recognition result as persisted (timestamps as epoch ms). -/
structure OCRResult where
  id : JSString
  text : JSString
  confidence : ℚ
  timestamp : Nat
deriving DecidableEq

/-- One completion result as persisted. -/
structure AIResponse where
  id : JSString
  question : JSString
  answer : JSString
  explanation : JSString
  confidence : ℚ
  timestamp : Nat
deriving DecidableEq

/-- A history entry pairing the two. -/
structure HistoryItem where
  id : JSString
  ocrResult : OCRResult
  aiResponse : AIResponse
deriving DecidableEq

/-- The append step of `handleResult`: `history.unshift(newItem)` then
`history.slice(0, 20)`. -/
def histAppend (history : List HistoryItem) (item : HistoryItem) : List HistoryItem :=
  (item :: history).take 20

/-- Repeated appends. -/
def histAppendAll (init : List HistoryItem) (items : List HistoryItem) : List HistoryItem :=
  items.foldl histAppend init

/-- The local key-value store, one field per key the app uses
(`openai_api_key`, `auto_capture`, `save_history`, `analysis_history`; the
history value abstracts its JSON round-trip as the entry list itself). -/
structure Storage where
  openaiApiKey : Option JSString
  autoCapture : Option JSString
  saveHistory : Option JSString
  analysisHistory : Option (List HistoryItem)
deriving DecidableEq

/-- `JSON.stringify` of a boolean. -/
def jsonOfBool (b : Bool) : JSString := if b then jstr "true" else jstr "false"

/-- `toggleSaveHistory`: persist the new flag under `save_history`. -/
def toggleSaveHistory (s : Storage) (value : Bool) : Storage :=
  { s with saveHistory := some (jsonOfBool value) }

/-- The persistence part of `handleResult`: read `analysis_history`
(missing → `[]`), prepend the new item, truncate to 20, write back.  No
other key is read or written. -/
def handleResultStore (s : Storage) (item : HistoryItem) : Storage :=
  { s with analysisHistory := some (histAppend (s.analysisHistory.getD []) item) }

/-- Invariant of the periodic loop: the ghost in-flight count mirrors the
guard, so it never exceeds one. -/
def rtInv (s : RtState) : Prop := s.active = if s.processing then 1 else 0

/-- A throwaway history entry, for concrete instantiations. -/
def dummyItem : HistoryItem :=
  { id := jstr "0"
    ocrResult := { id := jstr "0", text := jstr "t", confidence := 1/2, timestamp := 0 }
    aiResponse := { id := jstr "0", question := jstr "t", answer := jstr "a"
                    explanation := jstr "e", confidence := 1/2, timestamp := 0 } }

/-! ## Helper lemmas -/

theorem statusErrorMsg_eq_spec (status : Nat) (errCode errMsg : Option JSString) :
    statusErrorMsg status errCode errMsg = (specStatusError status errCode errMsg).toMsg := by
  unfold statusErrorMsg specStatusError
  split_ifs <;> rfl

theorem rtInv_step (s : RtState) (e : RtEvent) (h : rtInv s) : rtInv (rtStep s e) := by
  cases e with
  | tick now =>
    simp only [rtStep]
    split_ifs with hp hgap
    · exact h
    · exact h
    · simp only [rtInv] at h ⊢
      simp only [hp, if_false, Bool.false_eq_true] at h
      simp [h]
  | finish =>
    simp only [rtInv] at h
    cases hp : s.processing <;> simp [rtStep, rtInv, h, hp]

theorem rtInv_run (events : List RtEvent) : ∀ s : RtState, rtInv s → rtInv (rtRun s events) := by
  induction events with
  | nil => intro s h; exact h
  | cons e es ih =>
    intro s h
    exact ih (rtStep s e) (rtInv_step s e h)

theorem mem_of_mem_trimJs {c : Char} {l : JSString} (h : c ∈ trimJs l) : c ∈ l := by
  unfold trimJs at h
  rw [List.mem_reverse] at h
  have h1 := List.dropWhile_subset (l := (l.dropWhile isJsWhitespace).reverse) isJsWhitespace h
  rw [List.mem_reverse] at h1
  exact List.dropWhile_subset isJsWhitespace h1

theorem dropWhile_ne_nil_of_mem {p : Char → Bool} {l : List Char} {c : Char}
    (hc : c ∈ l) (hpc : p c = false) : l.dropWhile p ≠ [] := by
  intro hnil
  rw [List.dropWhile_eq_nil_iff] at hnil
  have := hnil c hc
  simp [hpc] at this

theorem trimJs_ne_nil {l : JSString} {c : Char} (hc : c ∈ l)
    (hpc : isJsWhitespace c = false) : trimJs l ≠ [] := by
  unfold trimJs
  rw [ne_eq, List.reverse_eq_nil_iff]
  have h1 : c ∈ l.dropWhile isJsWhitespace ∨ c ∈ l.takeWhile isJsWhitespace := by
    rw [or_comm, ← List.mem_append, List.takeWhile_append_dropWhile]
    exact hc
  have h2 : c ∈ l.dropWhile isJsWhitespace := by
    rcases h1 with h | h
    · exact h
    · exact absurd (List.mem_takeWhile_imp h) (by simp [hpc])
  exact dropWhile_ne_nil_of_mem (List.mem_reverse.mpr h2) hpc

theorem isPrefixList_cons {a : Char} {ns l : List Char}
    (h : isPrefixList (a :: ns) l = true) :
    ∃ t, l = a :: t ∧ isPrefixList ns t = true := by
  cases l with
  | nil => simp [isPrefixList] at h
  | cons b t =>
    simp only [isPrefixList, Bool.and_eq_true, beq_iff_eq] at h
    exact ⟨t, by rw [h.1], h.2⟩

theorem truthy_ne_num_zero {v : JsValue} (h : truthy v = true) : v ≠ .num 0 := by
  intro he
  rw [he] at h
  simp [truthy] at h

theorem truthy_ne_str_nil {v : JsValue} (h : truthy v = true) : v ≠ .str [] := by
  intro he
  rw [he] at h
  simp [truthy] at h

theorem analyzeContent_of_parse_some {content : JSString} {v : JsValue}
    (h : jsonParse content = some v) (hv : v ≠ .null) :
    analyzeContent content = defaultedResult v := by
  unfold analyzeContent
  rw [h]
  cases v with
  | null => exact absurd rfl hv
  | undefined => rfl
  | bool b => rfl
  | num q => rfl
  | str s => rfl
  | arr l => rfl
  | obj l => rfl

/-! ## Claim theorems -/

/-- C1 (counterexample): a Forbidden error (HTTP 403) caught during a
realtime capture attempt leaves periodic mode enabled and shows no alert —
its message matches neither substring the catch handler looks for — so the
claim that every authorization error disables periodic mode is false. -/
theorem c1_counterexample :
    realtimeCatch true ApiError.forbidden.toMsg = (true, false)
    ∧ realtimeCatch true ApiError.forbidden.toMsg ≠ (false, true) := by
  constructor
  · decide
  · decide

/-- C1 (amended): the realtime catch handler matches only the substrings
`API利用制限` and `APIキーが無効`, so exactly the RateLimited and
InvalidCredential errors disable periodic mode and alert the user; the
QuotaExceeded and Forbidden errors — and every error whose message contains
neither substring — leave periodic mode enabled and the timer running. -/
theorem c1_realtime_error_handling : ∀ (b : Bool) (msg : JSString),
    realtimeCatch b ApiError.invalidCredential.toMsg = (false, true)
    ∧ realtimeCatch b ApiError.rateLimited.toMsg = (false, true)
    ∧ realtimeCatch b ApiError.quotaExceeded.toMsg = (b, false)
    ∧ realtimeCatch b ApiError.forbidden.toMsg = (b, false)
    ∧ (shouldDisableRealtime msg = false → realtimeCatch b msg = (b, false)) := by
  intro b msg
  refine ⟨?_, ?_, ?_, ?_, ?_⟩
  · simp [realtimeCatch, show shouldDisableRealtime ApiError.invalidCredential.toMsg = true from by decide]
  · simp [realtimeCatch, show shouldDisableRealtime ApiError.rateLimited.toMsg = true from by decide]
  · simp [realtimeCatch, show shouldDisableRealtime ApiError.quotaExceeded.toMsg = false from by decide]
  · simp [realtimeCatch, show shouldDisableRealtime ApiError.forbidden.toMsg = false from by decide]
  · intro h
    simp [realtimeCatch, h]

/-- C1 (witness): instantiating the amended claim at an unmatched message. -/
theorem c1_witness : realtimeCatch true (jstr "network request failed") = (true, false) :=
  (c1_realtime_error_handling true (jstr "network request failed")).2.2.2.2 (by decide)

/-- C2: with a credential set, every non-success HTTP response makes
`analyzeText` fail with exactly the message of the typed error the spec
assigns to the status: 401 → InvalidCredential; 429 with error code
`insufficient_quota` → QuotaExceeded; any other 429 → RateLimited;
403 → Forbidden; any other non-success status → UpstreamError carrying the
status and the upstream message. -/
theorem c2_status_error_mapping : ∀ (apiKey : JSString) (resp : HttpResponse),
    apiKey.isEmpty = false → respOk resp.status = false →
    analyzeText apiKey resp
      = .error (specStatusError resp.status resp.errorCode resp.errorMessage).toMsg
    ∧ (resp.status = 401 →
        specStatusError resp.status resp.errorCode resp.errorMessage = .invalidCredential)
    ∧ (resp.status = 429 → resp.errorCode = some (jstr "insufficient_quota") →
        specStatusError resp.status resp.errorCode resp.errorMessage = .quotaExceeded)
    ∧ (resp.status = 429 → resp.errorCode ≠ some (jstr "insufficient_quota") →
        specStatusError resp.status resp.errorCode resp.errorMessage = .rateLimited)
    ∧ (resp.status = 403 →
        specStatusError resp.status resp.errorCode resp.errorMessage = .forbidden)
    ∧ (resp.status ≠ 401 → resp.status ≠ 429 → resp.status ≠ 403 →
        specStatusError resp.status resp.errorCode resp.errorMessage
          = .upstream resp.status resp.errorMessage) := by
  intro apiKey resp hkey hok
  refine ⟨?_, ?_, ?_, ?_, ?_, ?_⟩
  · simp [analyzeText, hkey, hok, statusErrorMsg_eq_spec]
  · intro h; simp [specStatusError, h]
  · intro h hc; simp [specStatusError, h, hc]
  · intro h hc; simp [specStatusError, h, hc]
  · intro h; simp [specStatusError, h]
  · intro h1 h2 h3; simp [specStatusError, h1, h2, h3]

/-- C2 (witness): a 401 response with a key set fails with the
InvalidCredential message. -/
theorem c2_witness :
    analyzeText (jstr "sk-x") ⟨401, none, none, []⟩ = .error invalidCredentialMsg :=
  ((c2_status_error_mapping (jstr "sk-x") ⟨401, none, none, []⟩
    (by decide) (by decide)).1).trans (by rfl)

/-- C3: during periodic capture, recognized text passes the forwarding
filter exactly when it is longer than 10 characters and contains `?`, `？`,
`=`, `＝` or an ASCII digit. -/
theorem c3_question_filter : ∀ t : JSString,
    questionLike t = true ↔
      10 < t.length
        ∧ ('?' ∈ t ∨ '？' ∈ t ∨ '=' ∈ t ∨ '＝' ∈ t ∨ ∃ c ∈ t, c.isDigit = true) := by
  intro t
  constructor
  · intro h
    simp only [questionLike, Bool.and_eq_true, Bool.or_eq_true, decide_eq_true_eq,
      List.any_eq_true, List.contains_eq_any_beq, beq_iff_eq] at h
    obtain ⟨⟨-, hlen⟩, hsym⟩ := h
    refine ⟨hlen, ?_⟩
    rcases hsym with ((((h | h) | h) | h) | h)
    · obtain ⟨x, hx, hxe⟩ := h; exact Or.inl (hxe ▸ hx)
    · obtain ⟨x, hx, hxe⟩ := h; exact Or.inr (Or.inl (hxe ▸ hx))
    · obtain ⟨x, hx, hxe⟩ := h; exact Or.inr (Or.inr (Or.inl (hxe ▸ hx)))
    · obtain ⟨x, hx, hxe⟩ := h; exact Or.inr (Or.inr (Or.inr (Or.inl (hxe ▸ hx))))
    · exact Or.inr (Or.inr (Or.inr (Or.inr h)))
  · rintro ⟨hlen, hsym⟩
    have hne : ¬t.isEmpty := by
      rw [List.isEmpty_iff]
      intro hnil
      rw [hnil] at hlen
      simp at hlen
    simp only [questionLike, Bool.and_eq_true, Bool.or_eq_true, decide_eq_true_eq,
      List.any_eq_true, List.contains_eq_any_beq, beq_iff_eq, Bool.not_eq_true']
    refine ⟨⟨by simpa using hne, hlen⟩, ?_⟩
    rcases hsym with (h | h | h | h | h)
    · exact Or.inl (Or.inl (Or.inl (Or.inl ⟨_, h, rfl⟩)))
    · exact Or.inl (Or.inl (Or.inl (Or.inr ⟨_, h, rfl⟩)))
    · exact Or.inl (Or.inl (Or.inr ⟨_, h, rfl⟩))
    · exact Or.inl (Or.inr ⟨_, h, rfl⟩)
    · exact Or.inr h

/-- C3 (witness): the spec's example text (length 18, containing `？` and
`=`) passes the filter. -/
theorem c3_witness : questionLike (jstr "この問題の答えは何ですか？(x=5)") = true :=
  (c3_question_filter (jstr "この問題の答えは何ですか？(x=5)")).mpr (by decide)

/-- C4 (counterexample): the body `"42"` is valid JSON (a number), so
`analyzeText` takes the parsed branch and returns the three defaults — not
`{answer:"42", explanation:<filler>, confidence:0.8}` as claimed. -/
theorem c4_counterexample :
    analyzeContent (jstr "42")
      = { answer := .str (jstr "No answer provided")
          explanation := .str (jstr "No explanation provided")
          confidence := .num (1/2) }
    ∧ analyzeContent (jstr "42") ≠ fallbackResult (jstr "42") := by
  have h : analyzeContent (jstr "42")
      = { answer := .str (jstr "No answer provided")
          explanation := .str (jstr "No explanation provided")
          confidence := .num (1/2) } := by
    with_unfolding_all rfl
  refine ⟨h, ?_⟩
  rw [h]
  intro heq
  have h2 := congrArg AnalyzeResult.confidence heq
  simp only [fallbackResult, JsValue.num.injEq] at h2
  norm_num at h2

/-- C4 (amended): whenever the message body is NOT valid JSON, `analyzeText`
returns the whole body as the answer, the fixed filler string as the
explanation, and confidence exactly 0.8.  (The claim's example `"42"` does
not fall in this case: it is valid JSON and yields the defaults instead; a
genuinely non-JSON body such as `"hello"` does.) -/
theorem c4_nonjson_fallback : ∀ content : JSString,
    jsonParse content = none →
    analyzeContent content
      = { answer := .str content
          explanation := .str (jstr "GPT-4による回答")
          confidence := .num (4/5) } := by
  intro content h
  simp [analyzeContent, h, fallbackResult]

/-- C4 (witness): the non-JSON body `"hello"` is answered verbatim with the
filler explanation and confidence 0.8. -/
theorem c4_witness :
    analyzeContent (jstr "hello")
      = { answer := .str (jstr "hello")
          explanation := .str (jstr "GPT-4による回答")
          confidence := .num (4/5) } :=
  c4_nonjson_fallback (jstr "hello") (by rfl)

/-- C5 (counterexample): the credential `"sk-abc "` is non-empty and starts
with `sk-`, yet save-then-load returns the trimmed `"sk-abc"`, not the same
value: `saveApiKey` persists `apiKey.trim()`. -/
theorem c5_counterexample :
    saveApiKey none (jstr "sk-abc ") = some (jstr "sk-abc")
    ∧ loadApiKey (saveApiKey none (jstr "sk-abc ")) = jstr "sk-abc"
    ∧ jstr "sk-abc" ≠ jstr "sk-abc " := by
  refine ⟨by decide, by decide, by decide⟩

/-- C5 (amended): for every stored state and every credential starting with
`sk-`, save-then-load returns the TRIMMED credential; when the credential
carries no leading or trailing whitespace this is the credential itself. -/
theorem c5_save_load_roundtrip : ∀ (stored : Option JSString) (v : JSString),
    isPrefixList (jstr "sk-") v = true →
    loadApiKey (saveApiKey stored v) = trimJs v
    ∧ (trimJs v = v → loadApiKey (saveApiKey stored v) = v) := by
  intro stored v hpre
  obtain ⟨t, hv, -⟩ := isPrefixList_cons hpre
  have hs : 's' ∈ v := by rw [hv]; exact List.mem_cons_self _ _
  have htrim : trimJs v ≠ [] := trimJs_ne_nil hs (by decide)
  have hsave : saveApiKey stored v = some (trimJs v) := by
    unfold saveApiKey
    rw [if_neg (by simpa [List.isEmpty_iff] using htrim), hpre]
    simp
  have hload : loadApiKey (saveApiKey stored v) = trimJs v := by
    rw [hsave]
    show (if (trimJs v).isEmpty = true then [] else trimJs v) = trimJs v
    rw [if_neg (by simpa [List.isEmpty_iff] using htrim)]
  exact ⟨hload, fun heq => by rw [hload, heq]⟩

/-- C5 (witness): `"sk-abc"` (no surrounding whitespace) round-trips to
itself. -/
theorem c5_witness : loadApiKey (saveApiKey none (jstr "sk-abc")) = jstr "sk-abc" :=
  (c5_save_load_roundtrip none (jstr "sk-abc") (by decide)).2 (by decide)

/-- C6 (counterexample): `recognizeText` additionally trims the cleaned
text; on raw input `"ab "` it returns `"ab"`, while the claim's
transformation (collapse whitespace, strip disallowed characters) yields
`"ab "` — so the claim's description of the returned text is incomplete. -/
theorem c6_counterexample :
    cleanOcrText (jstr "ab ") = jstr "ab"
    ∧ specCleanText (jstr "ab ") = jstr "ab "
    ∧ cleanOcrText (jstr "ab ") ≠ specCleanText (jstr "ab ") := by
  refine ⟨by decide, by decide, by decide⟩

/-- C6 (amended): the returned text is the claim's transformation (collapse
whitespace runs to one space, strip characters outside the allowed set —
which is JS `\w`, so underscores included, plus whitespace, hiragana,
katakana, CJK ideographs and `+-×÷=()?!。、`) followed by a trim of leading
and trailing whitespace; every returned character is from the allowed set,
and the returned confidence `max(0.1, raw/100)` is never below 0.1. -/
theorem c6_recognize_cleanup : ∀ (raw : JSString) (conf : ℚ),
    cleanOcrText raw = trimJs (specCleanText raw)
    ∧ (∀ c, c ∈ cleanOcrText raw → allowedChar c = true)
    ∧ 1/10 ≤ ocrConfidence conf := by
  intro raw conf
  refine ⟨rfl, ?_, le_max_left _ _⟩
  intro c hc
  have h1 : c ∈ (collapseWs raw).filter allowedChar := mem_of_mem_trimJs hc
  exact (List.mem_filter.mp h1).2

/-- C6 (witness): instantiating the amended claim on raw `" a"` and a raw
engine confidence of 50. -/
theorem c6_witness : allowedChar 'a' = true ∧ (1 : ℚ)/10 ≤ ocrConfidence 50 :=
  ⟨(c6_recognize_cleanup (jstr " a") 50).2.1 'a' (by decide),
   (c6_recognize_cleanup (jstr " a") 50).2.2⟩

/-- Length bound preserved by every append. -/
theorem histAppendAll_length_le : ∀ (items init : List HistoryItem),
    init.length ≤ 20 → (histAppendAll init items).length ≤ 20 := by
  intro items
  induction items with
  | nil => intro init h; exact h
  | cons a as ih =>
    intro init h
    apply ih
    simp only [histAppend, List.length_take]
    omega

/-- C7: under any sequence of appends the stored history never exceeds 20
entries, a new entry always lands at the front, and an append at capacity
drops exactly the oldest (last) entry. -/
theorem c7_history_capped : ∀ (items h : List HistoryItem) (x : HistoryItem),
    (histAppendAll [] items).length ≤ 20
    ∧ (histAppend h x).head? = some x
    ∧ (h.length = 20 → histAppend h x = x :: h.dropLast) := by
  intro items h x
  refine ⟨histAppendAll_length_le items [] (by simp), ?_, ?_⟩
  · simp only [histAppend, List.take_succ_cons, List.head?_cons]
  · intro hlen
    simp only [histAppend, List.take_succ_cons, List.dropLast_eq_take, hlen]

/-- C7 (witness): appending to a history of exactly 20 entries keeps the
new entry in front and drops the last. -/
theorem c7_witness :
    histAppend (List.replicate 20 dummyItem) dummyItem
      = dummyItem :: (List.replicate 20 dummyItem).dropLast :=
  (c7_history_capped [] (List.replicate 20 dummyItem) dummyItem).2.2 (by simp)

/-- C8: along any sequence of timer ticks and completions from the initial
state, at most one capture/recognize/analyze run is ever in flight, and a
tick that fires while the guard is held leaves the state exactly as it was
— the tick is dropped, not queued. -/
theorem c8_no_overlap : ∀ events : List RtEvent,
    (rtRun rtInit events).active ≤ 1
    ∧ ∀ (s : RtState) (now : Nat), s.processing = true → rtStep s (.tick now) = s := by
  intro events
  constructor
  · have h := rtInv_run events rtInit (by simp [rtInv, rtInit])
    rw [rtInv] at h
    rw [h]
    split <;> omega
  · intro s now h
    simp [rtStep, h]

/-- C8 (witness): two immediate ticks start only one run, and a tick on a
busy state is the identity. -/
theorem c8_witness :
    (rtRun rtInit [RtEvent.tick 2000, RtEvent.tick 2001]).active ≤ 1
    ∧ rtStep ⟨true, 0, 1⟩ (.tick 2500) = ⟨true, 0, 1⟩ :=
  ⟨(c8_no_overlap [RtEvent.tick 2000, RtEvent.tick 2001]).1,
   (c8_no_overlap []).2 ⟨true, 0, 1⟩ 2500 rfl⟩

/-- C9 (counterexample): a body of `"null"` parses as valid JSON, but the
subsequent property read throws, so `analyzeText` returns the non-JSON
fallback (answer = whole body), NOT the defaults — the claimed substitution
does not happen for every valid-JSON body. -/
theorem c9_counterexample :
    jsonParse (jstr "null") = some .null
    ∧ analyzeContent (jstr "null") = fallbackResult (jstr "null")
    ∧ (analyzeContent (jstr "null")).answer ≠ .str (jstr "No answer provided") := by
  refine ⟨rfl, rfl, ?_⟩
  intro h
  have h2 := JsValue.str.inj h
  exact absurd h2 (by decide)

/-- C9 (amended): for every body parsing to a JSON value other than `null`,
each falsy field is replaced by its default — a falsy `answer` or
`explanation` becomes the fixed default string and a confidence of 0
becomes 0.5 — so such a result never carries confidence 0 or an empty
answer or explanation.  (A body parsing to JSON `null` instead takes the
fallback branch: reading a property of `null` throws into the same catch.) -/
theorem c9_falsy_field_defaults : ∀ (content : JSString) (v : JsValue),
    jsonParse content = some v → v ≠ .null →
    analyzeContent content = defaultedResult v
    ∧ (truthy (getField v (jstr "answer")) = false →
        (analyzeContent content).answer = .str (jstr "No answer provided"))
    ∧ (truthy (getField v (jstr "explanation")) = false →
        (analyzeContent content).explanation = .str (jstr "No explanation provided"))
    ∧ (getField v (jstr "confidence") = .num 0 →
        (analyzeContent content).confidence = .num (1/2))
    ∧ (analyzeContent content).confidence ≠ .num 0
    ∧ (analyzeContent content).answer ≠ .str []
    ∧ (analyzeContent content).explanation ≠ .str [] := by
  intro content v hp hv
  have hd := analyzeContent_of_parse_some hp hv
  rw [hd]
  refine ⟨rfl, ?_, ?_, ?_, ?_, ?_, ?_⟩
  · intro h; simp [defaultedResult, jsOr, h]
  · intro h; simp [defaultedResult, jsOr, h]
  · intro h; simp [defaultedResult, jsOr, h, truthy]
  · simp only [defaultedResult, jsOr]
    split
    · next h => exact truthy_ne_num_zero h
    · intro h
      have h2 := JsValue.num.inj h
      norm_num at h2
  · simp only [defaultedResult, jsOr]
    split
    · next h => exact truthy_ne_str_nil h
    · intro h
      exact absurd (JsValue.str.inj h) (by decide)
  · simp only [defaultedResult, jsOr]
    split
    · next h => exact truthy_ne_str_nil h
    · intro h
      exact absurd (JsValue.str.inj h) (by decide)

/-- C9 (witness): a parsed body with an empty answer, an absent explanation
and confidence 0 receives all three defaults. -/
theorem c9_witness :
    (analyzeContent (jstr "\x7b\"answer\":\"\",\"confidence\":0\x7d")).answer
      = .str (jstr "No answer provided")
    ∧ (analyzeContent (jstr "\x7b\"answer\":\"\",\"confidence\":0\x7d")).explanation
      = .str (jstr "No explanation provided")
    ∧ (analyzeContent (jstr "\x7b\"answer\":\"\",\"confidence\":0\x7d")).confidence
      = .num (1/2) := by
  have happ := c9_falsy_field_defaults (jstr "\x7b\"answer\":\"\",\"confidence\":0\x7d")
    (.obj [(jstr "answer", .str []), (jstr "confidence", .num 0)])
    (by with_unfolding_all rfl) (by intro h; exact JsValue.noConfusion h)
  exact ⟨happ.2.1 (by decide), happ.2.2.1 (by decide), happ.2.2.2.1 (by with_unfolding_all rfl)⟩

/-- C10: the append path writes the new entry to the persisted history
unconditionally — it reads and writes only the history slot, commutes with
toggling the save-history preference, and produces the same history even
when the stored preference is `"false"`; the settings screen meanwhile does
persist the toggled preference. -/
theorem c10_history_saved_unconditionally : ∀ (s : Storage) (item : HistoryItem) (b : Bool),
    (handleResultStore s item).analysisHistory
      = some (histAppend (s.analysisHistory.getD []) item)
    ∧ (handleResultStore s item).saveHistory = s.saveHistory
    ∧ handleResultStore (toggleSaveHistory s b) item
      = toggleSaveHistory (handleResultStore s item) b
    ∧ (handleResultStore { s with saveHistory := some (jsonOfBool false) } item).analysisHistory
      = (handleResultStore s item).analysisHistory
    ∧ (toggleSaveHistory s b).saveHistory = some (jsonOfBool b) := by
  intro s item b
  exact ⟨rfl, rfl, rfl, rfl, rfl⟩
